import Mathlib

/-!
Verification of the audit/activity-tracking subsystem of the Station-Manager
repository against its natural-language specification.

The shallow embedding below translates the audit-relevant TypeScript into Lean:
* `createAuditLog` / `logAuditEvent` from the recorder write path,
* the `auditLog` interception middleware (overridden `res.send`),
* the query engine (`getAuditLogs`, `getAuditLogsByUser`, and the
  database-operation tables of the read endpoints).

JavaScript dynamic values are modelled explicitly: string truthiness
(`""` is falsy), optional request parameters, and `JSON.parse` of a
response body carried as the parse result.  The Event Store is a list of
records; a failing insert is represented by a `DbOutcome` parameter.
Timestamps are integers (epoch milliseconds).
-/

namespace StationMgr

/-- JavaScript truthiness of a string: the empty string is falsy. -/
def strTruthy (s : String) : Bool := !s.isEmpty

/-- JavaScript truthiness of an optional string value (`undefined` is falsy). -/
def optTruthy : Option String → Bool
  | none => false
  | some s => strTruthy s

/-- The persisted AuditLog record, as created by `AuditLog.create` in
`auditLogController.ts`: userId, action, targetType, targetId,
timestamp (set to `new Date()` at creation), ipAddress. -/
structure AuditEvent where
  userId : String
  action : String
  targetType : String
  targetId : String
  timestamp : Int
  ipAddress : String
deriving DecidableEq, Repr

/-- The Event Store: the `AuditLogs` table, in insertion order. -/
abbrev Store := List AuditEvent

/-- Whether the Event Store accepts an insert (`.fail` models an unavailable
or rejecting store, i.e. `AuditLog.create` rejecting). -/
inductive DbOutcome where
  | ok
  | fail
deriving DecidableEq, Repr

/-- Model of `AuditLog.create`: appends the record, or throws (models a persistence
error as an `Except.error`). -/
def auditLogModelCreate (st : Store) (e : AuditEvent) : DbOutcome → Except String Store
  | .ok => .ok (st ++ [e])
  | .fail => .error "insert failed"

/-- The helper `createAuditLog` from `auditLogController.ts` (lines 131-151): builds the
record with `timestamp = new Date()` and persists it inside a try/catch whose
catch only writes to `console.error` — the error is suppressed and the
function returns normally.  The second component is the observable outcome
for the caller: `.ok ()` means the call returned without throwing. -/
def createAuditLog (userId action targetType targetId : String) (now : Int)
    (ipAddress : String) (st : Store) (outcome : DbOutcome) :
    Store × Except String Unit :=
  match auditLogModelCreate st ⟨userId, action, targetType, targetId, now, ipAddress⟩ outcome with
  | .ok st2 => (st2, .ok ())
  | .error _ => (st, .ok ())

/-- The authenticated-principal context attached to a request
(`(req as any).user`); `userId` may itself be absent. -/
structure UserCtx where
  userId : Option String
deriving DecidableEq, Repr

/-- The route parameters read by the interception middleware. -/
structure ReqParams where
  id : Option String
  stationId : Option String
  userId : Option String
deriving DecidableEq, Repr

/-- The request as observed by the audit subsystem: principal context,
route parameters and the transport metadata used by `getClientIP`. -/
structure Req where
  user : Option UserCtx
  params : ReqParams
  xForwardedFor : Option String
  connectionRemoteAddress : Option String
  socketRemoteAddress : Option String
deriving DecidableEq, Repr

/-- The characters of a header before its first comma. -/
def takeUntilComma : List Char → List Char
  | [] => []
  | c :: cs => if c = ',' then [] else c :: takeUntilComma cs

/-- JavaScript `header.split(',')[0]`: everything before the first comma
(the whole string when no comma occurs). -/
def firstForwardedEntry (h : String) : String := ⟨takeUntilComma h.data⟩

/-- The function `getClientIP` from `auditLogController.ts`: first entry of the
`x-forwarded-for` header, else `req.connection.remoteAddress`, else
`req.socket.remoteAddress`, else `"0.0.0.0"`; `||` falls through on
falsy (empty or absent) values. -/
def getClientIP (req : Req) : String :=
  let fwd : String :=
    match req.xForwardedFor with
    | some h => firstForwardedEntry h
    | none => ""
  if strTruthy fwd then fwd
  else
    match req.connectionRemoteAddress with
    | some a => if strTruthy a then a else
        match req.socketRemoteAddress with
        | some b => if strTruthy b then b else "0.0.0.0"
        | none => "0.0.0.0"
    | none =>
        match req.socketRemoteAddress with
        | some b => if strTruthy b then b else "0.0.0.0"
        | none => "0.0.0.0"

/-- A nested JSON object of which the middleware only reads the `id` field
(e.g. `parsedBody.data.user`). -/
structure IdObj where
  id : Option String
deriving DecidableEq, Repr

/-- The shape of `parsedBody.data` probed by the payload walk, in the order
the middleware checks it: `id`, `user.id`, `station.id`, `profile.id`,
`backup.id`, `reminder.id`, `role.id`. -/
structure DataObj where
  id : Option String
  user : Option IdObj
  station : Option IdObj
  profile : Option IdObj
  backup : Option IdObj
  reminder : Option IdObj
  role : Option IdObj
deriving DecidableEq, Repr

/-- A parsed response payload (`parsedBody`); `data` is absent when the JSON
has no truthy `data` member. -/
structure Payload where
  data : Option DataObj
deriving DecidableEq, Repr

/-- The value handed to `res.send`.  `JSON.parse` of a string body is
modelled by carrying its result: `strBody none` is a string that fails to
parse.  `objBody` is any non-string body (object, buffer); the middleware
skips the payload walk for it because of its `typeof body === 'string'`
guard.  `nullBody` is a falsy body. -/
inductive Body where
  | strBody (parsed : Option Payload)
  | objBody (p : Payload)
  | nullBody
deriving DecidableEq, Repr

/-- The nested truthiness test `obj && obj.id` of the payload walk. -/
def idOf : Option IdObj → Option String
  | none => none
  | some o => o.id

/-- The payload walk of the interception middleware: the if/else-if chain
over `parsedBody.data`, returning the first location whose value is truthy,
or `none` (the caller then keeps the sentinel). -/
def walkPayload (p : Payload) : Option String :=
  match p.data with
  | none => none
  | some d =>
    if optTruthy d.id then d.id
    else if optTruthy (idOf d.user) then idOf d.user
    else if optTruthy (idOf d.station) then idOf d.station
    else if optTruthy (idOf d.profile) then idOf d.profile
    else if optTruthy (idOf d.backup) then idOf d.backup
    else if optTruthy (idOf d.reminder) then idOf d.reminder
    else if optTruthy (idOf d.role) then idOf d.role
    else none

/-- The response object as seen inside the overridden `send`. -/
structure Res where
  statusCode : Nat
deriving DecidableEq, Repr

/-- An optional caller-supplied `getTargetId(req, res)` override; a throwing
resolver is one returning `.error`. -/
abbrev Resolver := Req → Res → Except String String

/-- The target-id resolution performed inside the try-block of the overridden
`send` in `auditLogger.ts` (lines 70-101): `targetId` starts at `'unknown'`;
a supplied `getTargetId` is called (and may throw — there is no fallback
around it); otherwise the path parameters `id`, `stationId`, `userId` are
tried in order; otherwise, for a truthy string body, `JSON.parse` plus the
payload walk run inside an inner try/catch that keeps `'unknown'` on a parse
failure. -/
def resolveTargetId (getTargetId : Option Resolver) (req : Req) (res : Res)
    (body : Body) : Except String String :=
  match getTargetId with
  | some f => f req res
  | none =>
    if optTruthy req.params.id then .ok (req.params.id.getD "unknown")
    else if optTruthy req.params.stationId then .ok (req.params.stationId.getD "unknown")
    else if optTruthy req.params.userId then .ok (req.params.userId.getD "unknown")
    else
      match body with
      | .strBody (some p) => .ok ((walkPayload p).getD "unknown")
      | .strBody none => .ok "unknown"
      | .objBody _ => .ok "unknown"
      | .nullBody => .ok "unknown"

/-- JavaScript truthiness of `user && user.userId` on the request context. -/
def actorTruthy (req : Req) : Bool :=
  match req.user with
  | some u => optTruthy u.userId
  | none => false

/-- What the overridden `send` of one wrapped operation did. -/
structure SendOutcome where
  store : Store
  dispatched : Bool
  sentBody : Body
deriving Repr

/-- The overridden `res.send` installed by the `auditLog` middleware factory
(`auditLogger.ts`, lines 63-118), for one completion of the wrapped
operation.  On a 2xx status with a truthy `req.user.userId` it resolves the
target id and dispatches `createAuditLog` (fire-and-forget, its rejection
only logged); the outer try/catch swallows a throwing custom resolver, in
which case the dispatch is skipped.  `originalSend` always receives the
unaltered body. -/
def auditSendHook (action targetType : String) (getTargetId : Option Resolver)
    (req : Req) (res : Res) (body : Body) (now : Int) (st : Store)
    (outcome : DbOutcome) : SendOutcome :=
  if 200 ≤ res.statusCode ∧ res.statusCode < 300 then
    if actorTruthy req then
      match resolveTargetId getTargetId req res body with
      | .ok targetId =>
        let userId :=
          match req.user with
          | some u => u.userId.getD ""
          | none => ""
        let st2 := (createAuditLog userId action targetType targetId now
          (getClientIP req) st outcome).1
        ⟨st2, true, body⟩
      | .error _ => ⟨st, false, body⟩
    else ⟨st, false, body⟩
  else ⟨st, false, body⟩

/-- The value a JavaScript caller binds to `logAuditEvent`'s `req` parameter.
Property access on it follows JS semantics: `.user` on an actual request
reads the context, on a string yields `undefined`, and on `undefined`
throws a TypeError (caught by `logAuditEvent`'s try/catch). -/
inductive JsReqArg where
  | reqVal (r : Req)
  | strVal (s : String)
  | undefinedVal
deriving DecidableEq, Repr

/-- The helper `logAuditEvent` from `auditLogger.ts` (lines 124-139): reads
`(req as any).user`, guards on `user && user.userId`, and only then calls
`createAuditLog`; everything sits in a try/catch that suppresses errors.
When the argument is a string, `.user` is `undefined` and the guard fails;
when it is `undefined`, the property access throws and is caught.  Either
way nothing is recorded. -/
def logAuditEvent (reqArg : JsReqArg) (action targetType targetId : String)
    (now : Int) (st : Store) (outcome : DbOutcome) : Store :=
  match reqArg with
  | .reqVal r =>
    match r.user with
    | some u =>
      if optTruthy u.userId then
        (createAuditLog (u.userId.getD "") action targetType targetId now
          (getClientIP r) st outcome).1
      else st
    | none => st
  | .strVal _ => st
  | .undefinedVal => st

/-- The first argument actually passed to `logAuditEvent` at every explicit
call site in the controllers: `(req as any).user?.userId`, i.e. a plain
string when the actor is present, `undefined` otherwise — not the request
object the parameter is declared as. -/
def userIdArg (r : Req) : JsReqArg :=
  match r.user with
  | some u =>
    match u.userId with
    | some s => .strVal s
    | none => .undefinedVal
  | none => .undefinedVal

/-- The HTTP result of a business controller: status and whether the JSON
body carried `success: true`. -/
structure HttpResult where
  status : Nat
  success : Bool
deriving DecidableEq, Repr

/-- The audit-relevant inputs of one `createStation` invocation
(`stationController.ts`): whether the Joi body validation passes, whether a
station with the same serial number already exists, and the id the created
row receives. -/
structure CreateStationReq where
  req : Req
  validBody : Bool
  serialExists : Bool
  newStationId : String
deriving Repr

/-- The handler `createStation` from `stationController.ts` (audit-relevant control
flow): 400 on invalid body, 400 on duplicate serial number; otherwise the
station is created, `logAuditEvent` is called with
`(req as any).user?.userId` as its first argument (the declared `req`
parameter) and the `STATION_CREATED`/`Station` pair, and the handler
responds 201 with `success: true`.  `outcome` is the Event Store's
disposition toward the audit insert; the station's own insert succeeding is
the premise of this path. -/
def createStation (c : CreateStationReq) (now : Int) (st : Store)
    (outcome : DbOutcome) : Store × HttpResult :=
  if !c.validBody then (st, ⟨400, false⟩)
  else if c.serialExists then (st, ⟨400, false⟩)
  else
    let st2 := logAuditEvent (userIdArg c.req) "STATION_CREATED" "Station"
      c.newStationId now st outcome
    (st2, ⟨201, true⟩)

/-- The audit-relevant inputs of one `createReminder` invocation
(`backupReminderController.ts`): body validation, existence of the
referenced station, and the id the created reminder receives. -/
structure CreateReminderReq where
  req : Req
  validBody : Bool
  stationExists : Bool
  newReminderId : String
deriving Repr

/-- The handler `createReminder` from `backupReminderController.ts`: 400 on invalid
body, 400 when the referenced station does not exist, else 201 with the
JSON body `data: ⦃ reminder ⦄` (serialized by `res.json` through
`res.send`, hence a string body whose `data.reminder.id` is the new id). -/
def createReminderController (c : CreateReminderReq) : Nat × Body :=
  if !c.validBody then
    (400, .strBody (some ⟨none⟩))
  else if !c.stationExists then
    (400, .strBody (some ⟨none⟩))
  else
    (201, .strBody (some ⟨some ⟨none, none, none, none, none,
      some ⟨some c.newReminderId⟩, none⟩⟩))

/-- The observable outcome of running a request through a route wrapped by
the `auditLog` middleware. -/
structure RouteOutcome where
  status : Nat
  success : Bool
  sentBody : Body
  store : Store
  dispatched : Bool
deriving Repr

/-- Route `POST /api/backup-reminders` from `backupReminders.ts`: the
`auditReminderCreated` middleware (`auditLog('REMINDER_CREATED',
'BackupReminder')`, no custom resolver) wraps `createReminder`; the
controller's response flows through the overridden `send`. -/
def runCreateReminderRoute (c : CreateReminderReq) (now : Int) (st : Store)
    (outcome : DbOutcome) : RouteOutcome :=
  let resp := createReminderController c
  let so := auditSendHook "REMINDER_CREATED" "BackupReminder" none c.req
    ⟨resp.1⟩ resp.2 now st outcome
  ⟨resp.1, resp.1 == 201, so.sentBody, so.store, so.dispatched⟩

/-- A row of the Users table, with the attributes joined into audit queries. -/
structure UserRec where
  id : String
  firstName : String
  lastName : String
  username : String
deriving DecidableEq, Repr

/-- The Users table. -/
abbrev Users := List UserRec

/-- Lookup `User.findByPk` / the `include` join keyed on `userId`. -/
def lookupUser (users : Users) (uid : String) : Option UserRec :=
  users.find? (fun u => u.id == uid)

/-- Substring containment (`LIKE '%pat%'`); an empty pattern matches
everything. -/
def strContains (s pat : String) : Bool :=
  pat.isEmpty || (s.splitOn pat).length != 1

/-- Sequelize `Op.iLike` with a `%pat%` pattern: case-insensitive substring
match. -/
def iLikeContains (s pat : String) : Bool :=
  strContains s.toLower pat.toLower

/-- The raw query string of `GET /api/audit-logs` as typed by
`getAuditLogsSchema`; `none` is an absent parameter.  Type and format
checks of the schema (integer, uuid, ISO date) are represented by the
typed fields; the schema places no constraint relating `startDate` and
`endDate`. -/
structure AuditQuery where
  page : Option Int
  limit : Option Int
  userId : Option String
  action : Option String
  targetType : Option String
  targetId : Option String
  startDate : Option Int
  endDate : Option Int
  search : Option String
deriving DecidableEq, Repr

/-- The query after Joi validation: `page ≥ 1` (default 1), `1 ≤ limit ≤
100` (default 10). -/
structure ValidatedAuditQuery where
  page : Nat
  limit : Nat
  userId : Option String
  action : Option String
  targetType : Option String
  targetId : Option String
  startDate : Option Int
  endDate : Option Int
  search : Option String
deriving DecidableEq, Repr

/-- Validation `getAuditLogsSchema.validate(req.query)`: applies the defaults and the
range constraints `page.min(1)`, `limit.min(1).max(100)`; there is no
constraint between `startDate` and `endDate`. -/
def validateGetAuditLogs (q : AuditQuery) :
    Except (List String) ValidatedAuditQuery :=
  let page : Int := q.page.getD 1
  let limit : Int := q.limit.getD 10
  if page < 1 then .error ["page must be greater than or equal to 1"]
  else if limit < 1 then .error ["limit must be greater than or equal to 1"]
  else if 100 < limit then .error ["limit must be less than or equal to 100"]
  else .ok ⟨page.toNat, limit.toNat, q.userId, q.action, q.targetType,
    q.targetId, q.startDate, q.endDate, q.search⟩

/-- The `whereClause` of `getAuditLogs` applied to one event: equality on
`userId`/`targetType`/`targetId`, `iLike` substring on `action`, the
`timestamp` range (`Op.gte` startDate and `Op.lte` endDate, conjoined),
and the free-text OR clause over action, targetType and the joined user's
first name, last name and username.  Each clause is only installed when the
parameter is truthy, mirroring the guards in the handler. -/
def matchesFilters (v : ValidatedAuditQuery) (users : Users)
    (e : AuditEvent) : Bool :=
  (match v.userId with
   | some u => if u.isEmpty then true else e.userId == u
   | none => true) &&
  (match v.action with
   | some a => if a.isEmpty then true else iLikeContains e.action a
   | none => true) &&
  (match v.targetType with
   | some t => if t.isEmpty then true else e.targetType == t
   | none => true) &&
  (match v.targetId with
   | some t => if t.isEmpty then true else e.targetId == t
   | none => true) &&
  (match v.startDate with
   | some s => decide (s ≤ e.timestamp)
   | none => true) &&
  (match v.endDate with
   | some en => decide (e.timestamp ≤ en)
   | none => true) &&
  (match v.search with
   | some s =>
     if s.isEmpty then true
     else
       iLikeContains e.action s || iLikeContains e.targetType s ||
       (match lookupUser users e.userId with
        | some u => iLikeContains u.firstName s || iLikeContains u.lastName s ||
            iLikeContains u.username s
        | none => false)
   | none => true)

/-- Stable descending insertion by `timestamp`: an incoming event goes after
every already-placed event with a greater-or-equal timestamp, so ties keep
insertion order. -/
def insertDesc (e : AuditEvent) : List AuditEvent → List AuditEvent
  | [] => [e]
  | x :: xs => if e.timestamp ≤ x.timestamp then x :: insertDesc e xs
      else e :: x :: xs

/-- Ordering `ORDER BY timestamp DESC` with ties in insertion order (a stable sort). -/
def sortByTimestampDesc (xs : List AuditEvent) : List AuditEvent :=
  xs.foldl (fun acc e => insertDesc e acc) []

/-- The pagination block of a list response. -/
structure Pagination where
  currentPage : Nat
  totalPages : Nat
  totalItems : Nat
  itemsPerPage : Nat
  hasNextPage : Bool
  hasPreviousPage : Bool
deriving DecidableEq, Repr

/-- The response of `GET /api/audit-logs`: a 400 validation error with
field messages, or a 200 page. -/
inductive ListResp where
  | validationErr (msgs : List String)
  | okPage (items : List AuditEvent) (pagination : Pagination)
deriving DecidableEq, Repr

/-- The handler `getAuditLogs` from `auditLogController.ts` (lines 153-256): validate,
build the where clause, `findAndCountAll` with `limit`/`offset =
(page-1)*limit` ordered by timestamp descending, then `totalPages =
Math.ceil(total/limit)`, `hasNextPage = page < totalPages`,
`hasPreviousPage = page > 1`. -/
def getAuditLogs (q : AuditQuery) (users : Users) (st : Store) : ListResp :=
  match validateGetAuditLogs q with
  | .error msgs => .validationErr msgs
  | .ok v =>
    let matched := st.filter (matchesFilters v users)
    let sorted := sortByTimestampDesc matched
    let total := matched.length
    let totalPages := (total + v.limit - 1) / v.limit
    let items := (sorted.drop ((v.page - 1) * v.limit)).take v.limit
    .okPage items ⟨v.page, totalPages, total, v.limit,
      decide (v.page < totalPages), decide (1 < v.page)⟩

/-- The items the query engine returns for page `p` (1-based) of the filter
set `v`: the slice `offset = (p-1)*limit`, length at most `limit`, of the
descending-ordered matching events. -/
def listPageItems (v : ValidatedAuditQuery) (users : Users) (st : Store)
    (p : Nat) : List AuditEvent :=
  ((sortByTimestampDesc (st.filter (matchesFilters v users))).drop
    ((p - 1) * v.limit)).take v.limit

/-- The query string of `GET /api/audit-logs/user/:userId`.  The handler
destructures only `page`, `limit`, `action` and `targetType`; `startDate`,
`endDate` and `search` may be supplied but are never read.  There is no Joi
validation on this route: `page` and `limit` are used as `Number(page)` /
`Number(limit)` with defaults 1 and 10 and no upper bound.  (Non-numeric or
negative values, which would make the underlying SQL fail, are outside this
model.) -/
structure ByUserQuery where
  page : Option Nat
  limit : Option Nat
  action : Option String
  targetType : Option String
  startDate : Option Int
  endDate : Option Int
  search : Option String
deriving DecidableEq, Repr

/-- The response of `GET /api/audit-logs/user/:userId`. -/
inductive ByUserResp where
  | badRequest
  | notFound
  | okPage (items : List AuditEvent) (userInfo : UserRec) (pagination : Pagination)
deriving DecidableEq, Repr

/-- The `whereClause` of `getAuditLogsByUser`: always `userId`, plus the
`action` substring and `targetType` equality clauses when truthy.  No
timestamp clause and no free-text clause exist in this handler. -/
def byUserMatches (userId : String) (q : ByUserQuery) (e : AuditEvent) : Bool :=
  e.userId == userId &&
  (match q.action with
   | some a => if a.isEmpty then true else iLikeContains e.action a
   | none => true) &&
  (match q.targetType with
   | some t => if t.isEmpty then true else e.targetType == t
   | none => true)

/-- The handler `getAuditLogsByUser` from `auditLogController.ts` (lines 306-388): 400
when the path parameter is missing; 404 when `User.findByPk` finds no such
user (distinct from an empty page); otherwise `findAndCountAll` filtered on
the user with the unvalidated `page`/`limit` and the same response
arithmetic as the general list. -/
def getAuditLogsByUser (userId : String) (q : ByUserQuery) (users : Users)
    (st : Store) : ByUserResp :=
  if userId.isEmpty then .badRequest
  else
    match lookupUser users userId with
    | none => .notFound
    | some u =>
      let page := q.page.getD 1
      let limit := q.limit.getD 10
      let matched := st.filter (byUserMatches userId q)
      let sorted := sortByTimestampDesc matched
      let total := matched.length
      let totalPages := (total + limit - 1) / limit
      let items := (sorted.drop ((page - 1) * limit)).take limit
      .okPage items u ⟨page, totalPages, total, limit,
        decide (page < totalPages), decide (1 < page)⟩

/-- The kinds of Sequelize operations invoked on the `AuditLog` model. -/
inductive DbOp where
  | createOp
  | findAndCountAllOp
  | findByPkOp
  | countOp
  | findAllOp
  | updateOp
  | destroyOp
deriving DecidableEq, Repr

/-- Whether a model operation only reads. -/
def isReadOp : DbOp → Bool
  | .createOp => false
  | .updateOp => false
  | .destroyOp => false
  | .findAndCountAllOp => true
  | .findByPkOp => true
  | .countOp => true
  | .findAllOp => true

/-- One route of the audit-log router (`routes/auditLogs.ts`), with the
`AuditLog` operations its handler performs. -/
structure AuditRoute where
  method : String
  path : String
  handler : String
  auditLogOps : List DbOp
deriving DecidableEq, Repr

/-- The audit-log router: the four read endpoints registered in
`routes/auditLogs.ts` (list, statistics, list by actor, get by id) and the
`AuditLog` operations each handler issues. -/
def auditLogRoutes : List AuditRoute :=
  [⟨"GET", "/", "getAuditLogs", [.findAndCountAllOp]⟩,
   ⟨"GET", "/statistics", "getAuditLogStatistics",
     [.countOp, .countOp, .findAllOp, .findAllOp, .findAllOp, .findAllOp]⟩,
   ⟨"GET", "/user/:userId", "getAuditLogsByUser", [.findAndCountAllOp]⟩,
   ⟨"GET", "/:id", "getAuditLogById", [.findByPkOp]⟩]

/-- Every call site on the `AuditLog` model in the repository (call-site
name, operation): the single `create` inside `createAuditLog`, and the
reads of the four query handlers. -/
def auditLogCallSites : List (String × DbOp) :=
  [("createAuditLog", .createOp),
   ("getAuditLogs", .findAndCountAllOp),
   ("getAuditLogById", .findByPkOp),
   ("getAuditLogsByUser", .findAndCountAllOp),
   ("getAuditLogStatistics.totalLogs", .countOp),
   ("getAuditLogStatistics.recentLogs", .countOp),
   ("getAuditLogStatistics.actionStats", .findAllOp),
   ("getAuditLogStatistics.targetTypeStats", .findAllOp),
   ("getAuditLogStatistics.userActivityStats", .findAllOp),
   ("getAuditLogStatistics.dailyStats", .findAllOp)]

/-- First truthy value of an ordered candidate list (the spec's "first
present value" over a fixed, ordered set of locations). -/
def firstPresent : List (Option String) → Option String
  | [] => none
  | o :: rest => if optTruthy o then o else firstPresent rest

/-- Spec-side restatement of the resolution precedence (spec §4.1), written
from the spec's words to be compared with `resolveTargetId`: the caller's
resolver result if one is given; otherwise the first present path parameter
among `id`, `stationId`, `userId`; otherwise the first present value among
the seven payload locations of a parsed string body; otherwise the sentinel
`"unknown"`. -/
def resolveSpecOrder (getTargetId : Option (Req → Res → String)) (req : Req)
    (res : Res) (body : Body) : String :=
  match getTargetId with
  | some f => f req res
  | none =>
    match firstPresent [req.params.id, req.params.stationId, req.params.userId] with
    | some v => v
    | none =>
      match body with
      | .strBody (some p) =>
        (firstPresent [p.data.bind DataObj.id,
          idOf (p.data.bind DataObj.user),
          idOf (p.data.bind DataObj.station),
          idOf (p.data.bind DataObj.profile),
          idOf (p.data.bind DataObj.backup),
          idOf (p.data.bind DataObj.reminder),
          idOf (p.data.bind DataObj.role)]).getD "unknown"
      | _ => "unknown"

lemma insertDesc_length (e : AuditEvent) (xs : List AuditEvent) :
    (insertDesc e xs).length = xs.length + 1 := by
  induction xs with
  | nil => rfl
  | cons x xs ih =>
    unfold insertDesc
    split
    · simp [ih]
    · simp

lemma sortDesc_length (xs : List AuditEvent) :
    (sortByTimestampDesc xs).length = xs.length := by
  suffices h : ∀ acc : List AuditEvent,
      (xs.foldl (fun acc e => insertDesc e acc) acc).length = xs.length + acc.length by
    simpa using h []
  induction xs with
  | nil => intro acc; simp
  | cons x xs ih =>
    intro acc
    simp only [List.foldl_cons, ih, insertDesc_length, List.length_cons]
    omega

lemma optTruthy_exists (o : Option String) (h : optTruthy o = true) :
    ∃ s, o = some s := by
  cases o with
  | none => simp [optTruthy] at h
  | some s => exact ⟨s, rfl⟩

/-- Any page decomposition with a positive page size: the item counts of the
`ceil(n / l)` pages of a list of length `n` sum to `n`. -/
lemma sum_chunk_lengths (l : Nat) (hl : 0 < l) :
    ∀ (m : Nat) (xs : List AuditEvent), (xs.length + l - 1) / l = m →
      ((List.range m).map (fun p => ((xs.drop (p * l)).take l).length)).sum =
        xs.length := by
  intro m
  induction m with
  | zero =>
    intro xs h
    simp only [List.range_zero, List.map_nil, List.sum_nil]
    by_contra hne
    have hx : 1 ≤ xs.length := Nat.one_le_iff_ne_zero.mpr fun h0 => hne h0.symm
    have h1 : 1 ≤ (xs.length + l - 1) / l := (Nat.one_le_div_iff hl).mpr (by omega)
    omega
  | succ m ih =>
    intro xs h
    have hpos : 0 < xs.length := by
      by_contra hz
      have h0 : xs.length = 0 := by omega
      rw [h0] at h
      have hdiv : (0 + l - 1) / l = 0 := Nat.div_eq_of_lt (by omega)
      omega
    have hm : (xs.length - 1) / l = m := by
      have h1 : xs.length + l - 1 = (xs.length - 1) + l := by omega
      rw [h1, Nat.add_div_right _ hl] at h
      omega
    have hdropm : ((xs.drop l).length + l - 1) / l = m := by
      rw [List.length_drop]
      rcases le_or_lt xs.length l with hle | hgt
      · have hz : xs.length - l = 0 := by omega
        rw [hz]
        have hd0 : (0 + l - 1) / l = 0 := Nat.div_eq_of_lt (by omega)
        have hm0 : (xs.length - 1) / l = 0 := Nat.div_eq_of_lt (by omega)
        omega
      · have he : xs.length - l + l - 1 = xs.length - 1 := by omega
        rw [he, hm]
    rw [List.range_succ_eq_map]
    simp only [List.map_cons, List.map_map, List.sum_cons]
    have hhead : ((xs.drop (0 * l)).take l).length = min l xs.length := by
      simp [List.length_take]
    have htail :
        ((List.range m).map
          ((fun p => ((xs.drop (p * l)).take l).length) ∘ Nat.succ)).sum =
          (xs.drop l).length := by
      rw [← ih (xs.drop l) hdropm]
      congr 1
      apply List.map_congr_left
      intro p _
      simp only [Function.comp]
      rw [List.drop_drop, Nat.succ_mul, Nat.add_comm (p * l) l]
    rw [hhead, htail, List.length_drop, Nat.min_def]
    split <;> omega

lemma validate_ok_bounds (q : AuditQuery) (v : ValidatedAuditQuery)
    (hv : validateGetAuditLogs q = Except.ok v) :
    1 ≤ v.limit ∧ v.limit ≤ 100 ∧ 1 ≤ v.page := by
  simp only [validateGetAuditLogs] at hv
  split at hv
  · exact absurd hv (by simp)
  · split at hv
    · exact absurd hv (by simp)
    · split at hv
      · exact absurd hv (by simp)
      · cases hv
        simp only
        omega

lemma auditSendHook_sentBody (action targetType : String)
    (g : Option Resolver) (req : Req) (res : Res) (body : Body) (now : Int)
    (st : Store) (outcome : DbOutcome) :
    (auditSendHook action targetType g req res body now st outcome).sentBody =
      body := by
  unfold auditSendHook
  split
  · split
    · split <;> rfl
    · rfl
  · rfl

lemma resolveTargetId_none_ok (req : Req) (res : Res) (body : Body) :
    ∃ v, resolveTargetId none req res body = Except.ok v := by
  simp only [resolveTargetId]
  split
  · exact ⟨_, rfl⟩
  · split
    · exact ⟨_, rfl⟩
    · split
      · exact ⟨_, rfl⟩
      · cases body with
        | strBody parsed => cases parsed <;> exact ⟨_, rfl⟩
        | objBody p => exact ⟨_, rfl⟩
        | nullBody => exact ⟨_, rfl⟩

lemma walk_eq_firstPresent (p : Payload) :
    (walkPayload p).getD "unknown" =
      (firstPresent [p.data.bind DataObj.id,
        idOf (p.data.bind DataObj.user),
        idOf (p.data.bind DataObj.station),
        idOf (p.data.bind DataObj.profile),
        idOf (p.data.bind DataObj.backup),
        idOf (p.data.bind DataObj.reminder),
        idOf (p.data.bind DataObj.role)]).getD "unknown" := by
  cases hd : p.data with
  | none => simp [walkPayload, firstPresent, idOf, optTruthy, hd]
  | some d =>
    simp only [walkPayload, hd, Option.some_bind, firstPresent]

/-! Concrete inputs used to instantiate the theorems below. -/

/-- A request with an authenticated actor and no route parameters. -/
def reminderReqEx : Req :=
  ⟨some ⟨some "u-actor"⟩, ⟨none, none, none⟩, none, some "9.9.9.9", none⟩

/-- A valid reminder-creation request against an existing station. -/
def crEx : CreateReminderReq := ⟨reminderReqEx, true, true, "rem-1"⟩

/-- A request whose only resolution source is the path parameter `id`. -/
def reqC2 : Req := ⟨none, ⟨some "path-id", none, none⟩, none, none, none⟩

/-- A payload carrying a conflicting id at `data.id`. -/
def payloadC2 : Payload :=
  ⟨some ⟨some "payload-id", none, none, none, none, none, none⟩⟩

/-- A caller-supplied resolver that itself throws. -/
def throwingResolver : Resolver := fun _ _ => Except.error "resolver threw"

/-- An authenticated request hitting a wrapped route, used with the throwing
resolver. -/
def reqC3 : Req :=
  ⟨some ⟨some "u3"⟩, ⟨none, none, none⟩, none, some "3.3.3.3", none⟩

/-- A second throwing resolver with its own error. -/
def throwingResolver2 : Resolver := fun _ _ => Except.error "boom"

/-- An authenticated request with a path parameter, for the dispatch-gate
counterexample. -/
def reqC4 : Req :=
  ⟨some ⟨some "u-admin"⟩, ⟨some "42", none, none⟩, none, none, none⟩

/-- An anonymous request (no actor in context). -/
def reqAnon : Req := ⟨none, ⟨some "5", none, none⟩, none, none, none⟩

/-- An authenticated request with a forwarded-for header listing two
addresses. -/
def reqMal : Req :=
  ⟨some ⟨some "u4"⟩, ⟨none, none, none⟩, some "7.7.7.7, 8.8.8.8", none, none⟩

/-- An authenticated request with no parameters and no transport metadata. -/
def reqObj : Req := ⟨some ⟨some "u9"⟩, ⟨none, none, none⟩, none, none, none⟩

/-- A non-string response body whose `data.station.id` holds an id. -/
def payloadObj : Payload :=
  ⟨some ⟨none, none, some ⟨some "s-77"⟩, none, none, none, none⟩⟩

/-- An authenticated station-creation request passing validation. -/
def reqStation : Req :=
  ⟨some ⟨some "11111111-2222"⟩, ⟨none, none, none⟩, none, some "10.0.0.1", none⟩

/-- A station-creation request that succeeds on its own logic. -/
def csEx : CreateStationReq := ⟨reqStation, true, false, "station-77"⟩

/-- C1 — The recorder write path `createAuditLog` returns normally in every
Event Store state, including one in which the insert fails; the failed
insert leaves the store unchanged; and a business operation that succeeds
on its own logic (the wrapped reminder creation) still answers 201 with its
payload intact when the audit write fails. -/
theorem createAuditLog_never_throws :
    ∀ (userId action targetType targetId : String) (now : Int) (ip : String)
      (st : Store) (outcome : DbOutcome),
      (createAuditLog userId action targetType targetId now ip st outcome).2 =
        Except.ok () ∧
      (createAuditLog userId action targetType targetId now ip st
        DbOutcome.fail).1 = st ∧
      (∀ c : CreateReminderReq, c.validBody = true → c.stationExists = true →
        (runCreateReminderRoute c now st DbOutcome.fail).status = 201 ∧
        (runCreateReminderRoute c now st DbOutcome.fail).success = true ∧
        (runCreateReminderRoute c now st DbOutcome.fail).sentBody =
          (createReminderController c).2) := by
  intro userId action targetType targetId now ip st outcome
  refine ⟨?_, rfl, ?_⟩
  · cases outcome <;> rfl
  · intro c h1 h2
    refine ⟨?_, ?_, ?_⟩
    · simp [runCreateReminderRoute, createReminderController, h1, h2]
    · simp [runCreateReminderRoute, createReminderController, h1, h2]
    · simp only [runCreateReminderRoute]
      exact auditSendHook_sentBody _ _ _ _ _ _ _ _ _

/-- C1 witness: the theorem applied at a concrete store, actor and failing
insert. -/
theorem createAuditLog_never_throws_app :
    (createAuditLog "u1" "USER_LOGIN" "User" "t1" 0 "ip" [] DbOutcome.fail).2 =
      Except.ok () ∧
    (runCreateReminderRoute crEx 0 [] DbOutcome.fail).status = 201 := by
  have h := createAuditLog_never_throws "u1" "USER_LOGIN" "User" "t1" 0 "ip" []
    DbOutcome.fail
  exact ⟨h.1, (h.2.2 crEx rfl rfl).1⟩

/-- C2 — Target resolution follows the strict precedence of the spec: a
caller-supplied resolver's result when one is given; otherwise the path
parameters `id`, `stationId`, `userId` in order; otherwise the first present
value among the seven payload locations of a parsed string body; otherwise
the sentinel `"unknown"` (`resolveSpecOrder` restates the spec's wording);
in particular a truthy path parameter `id` wins over any conflicting payload
value. -/
theorem resolve_matches_spec_precedence (req : Req) (res : Res) (body : Body) :
    (∀ f : Req → Res → String,
      resolveTargetId (some (fun r s => Except.ok (f r s))) req res body =
        Except.ok (resolveSpecOrder (some f) req res body)) ∧
    (resolveTargetId none req res body =
      Except.ok (resolveSpecOrder none req res body)) ∧
    (∀ p : Payload, optTruthy req.params.id = true →
      resolveTargetId none req res (Body.strBody (some p)) =
        Except.ok (req.params.id.getD "unknown")) := by
  refine ⟨fun f => rfl, ?_, ?_⟩
  · simp only [resolveTargetId, resolveSpecOrder, firstPresent]
    by_cases h1 : optTruthy req.params.id
    · obtain ⟨s1, hs1⟩ := optTruthy_exists _ h1
      rw [hs1] at h1
      simp [h1, hs1]
    · by_cases h2 : optTruthy req.params.stationId
      · obtain ⟨s2, hs2⟩ := optTruthy_exists _ h2
        rw [hs2] at h2
        simp [h1, h2, hs2]
      · by_cases h3 : optTruthy req.params.userId
        · obtain ⟨s3, hs3⟩ := optTruthy_exists _ h3
          rw [hs3] at h3
          simp [h1, h2, h3, hs3]
        · simp only [h1, h2, h3, if_false, Bool.false_eq_true]
          cases body with
          | strBody parsed =>
            cases parsed with
            | none => rfl
            | some p =>
              simpa using congrArg (Except.ok (ε := String)) (walk_eq_firstPresent p)
          | objBody p => rfl
          | nullBody => rfl
  · intro p h
    simp [resolveTargetId, h]

/-- C2 witness: with both the path parameter `id` and a conflicting
`data.id` in the payload present, the path value wins. -/
theorem resolve_matches_spec_precedence_app :
    resolveTargetId none reqC2 ⟨200⟩ (Body.strBody (some payloadC2)) =
      Except.ok "path-id" := by
  have h := (resolve_matches_spec_precedence reqC2 ⟨200⟩
    (Body.strBody (some payloadC2))).2.2 payloadC2 (by decide)
  exact h

/-- Whether the optional caller-supplied resolver returns without throwing. -/
def resolverOk (g : Option Resolver) (req : Req) (res : Res) : Bool :=
  match g with
  | some f =>
    match f req res with
    | .ok _ => true
    | .error _ => false
  | none => true

/-- C3 counterexample — the claim that "an audit event is still dispatched"
for every input fails: with a caller-supplied resolver that throws, on a
2xx response with an authenticated actor, the middleware's outer catch
swallows the error before `createAuditLog` is reached, so nothing is
dispatched and the store stays empty. -/
theorem throwing_resolver_skips_dispatch :
    (auditSendHook "ROLE_UPDATED" "Role" (some throwingResolver) reqC3 ⟨200⟩
      (Body.strBody none) 0 [] DbOutcome.ok).dispatched = false ∧
    (auditSendHook "ROLE_UPDATED" "Role" (some throwingResolver) reqC3 ⟨200⟩
      (Body.strBody none) 0 [] DbOutcome.ok).store = [] ∧
    actorTruthy reqC3 = true := by
  refine ⟨rfl, rfl, rfl⟩

/-- C3 (amended) — Resolution never throws out of the audit path and the
response is never altered; a malformed (unparseable) string payload
degrades to the sentinel `"unknown"` and the audit event is still
dispatched with it; but when the caller-supplied resolver itself throws,
the error is caught at the middleware boundary and no audit event is
dispatched (the store is untouched), the response still being delivered
unchanged. -/
theorem resolution_degrades_gracefully (action targetType : String)
    (g : Option Resolver) (req : Req) (res : Res) (body : Body) (now : Int)
    (st : Store) (outcome : DbOutcome) :
    (auditSendHook action targetType g req res body now st outcome).sentBody =
      body ∧
    (∀ u : UserCtx, req.user = some u → optTruthy u.userId = true →
      200 ≤ res.statusCode → res.statusCode < 300 →
      g = none → optTruthy req.params.id = false →
      optTruthy req.params.stationId = false →
      optTruthy req.params.userId = false →
      body = Body.strBody none →
      auditSendHook action targetType g req res body now st DbOutcome.ok =
        ⟨st ++ [⟨u.userId.getD "", action, targetType, "unknown", now,
          getClientIP req⟩], true, body⟩) ∧
    (∀ (f : Resolver) (msg : String), g = some f →
      f req res = Except.error msg →
      (auditSendHook action targetType g req res body now st outcome).store =
        st ∧
      (auditSendHook action targetType g req res body now st
        outcome).dispatched = false) := by
  refine ⟨auditSendHook_sentBody _ _ _ _ _ _ _ _ _, ?_, ?_⟩
  · intro u hu htru h200 h300 hg hp1 hp2 hp3 hbody
    subst hg hbody
    have hact : actorTruthy req = true := by
      simp [actorTruthy, hu, htru]
    have hres : resolveTargetId none req res (Body.strBody none) =
        Except.ok "unknown" := by
      simp [resolveTargetId, hp1, hp2, hp3]
    simp [auditSendHook, hact, hres, h200, h300, hu, createAuditLog,
      auditLogModelCreate]
  · intro f msg hg hf
    subst hg
    unfold auditSendHook
    split
    · by_cases hact : actorTruthy req
      · simp only [hact, if_true]
        have hres : resolveTargetId (some f) req res body =
            Except.error msg := hf
        rw [hres]
        exact ⟨rfl, rfl⟩
      · simp only [hact]
        simp
    · exact ⟨rfl, rfl⟩

/-- C3 witness: the amended theorem applied to a malformed string body with
an authenticated actor on a 201 response — the event is dispatched with the
sentinel target id — and to the throwing resolver — nothing is dispatched. -/
theorem resolution_degrades_gracefully_app :
    auditSendHook "USER_UPDATED" "User" none reqMal ⟨201⟩ (Body.strBody none)
      5 [] DbOutcome.ok =
      ⟨[⟨"u4", "USER_UPDATED", "User", "unknown", 5, "7.7.7.7"⟩], true,
        Body.strBody none⟩ ∧
    (auditSendHook "ROLE_DELETED" "Role" (some throwingResolver2) reqC4 ⟨200⟩
      Body.nullBody 2 [] DbOutcome.ok).store = [] := by
  constructor
  · have h := (resolution_degrades_gracefully "USER_UPDATED" "User" none
      reqMal ⟨201⟩ (Body.strBody none) 5 [] DbOutcome.ok).2.1 ⟨some "u4"⟩ rfl
      (by decide) (by decide) (by decide) rfl (by decide) (by decide)
      (by decide) rfl
    exact h
  · exact ((resolution_degrades_gracefully "ROLE_DELETED" "Role"
      (some throwingResolver2) reqC4 ⟨200⟩ Body.nullBody 2 []
      DbOutcome.ok).2.2 throwingResolver2 "boom" rfl rfl).1

/-- C4 counterexample — "dispatched if and only if 2xx and actor present"
fails in one direction: a 204 completion with an authenticated actor but a
throwing custom resolver dispatches nothing. -/
theorem dispatch_gate_not_iff :
    (200 ≤ (204 : Nat) ∧ (204 : Nat) < 300) ∧
    actorTruthy reqC4 = true ∧
    (auditSendHook "STATION_UPDATED" "Station" (some throwingResolver2) reqC4
      ⟨204⟩ Body.nullBody 0 [] DbOutcome.ok).dispatched = false := by
  refine ⟨by omega, rfl, rfl⟩

/-- C4 (amended) — An audit event is dispatched iff the status code is in
[200, 300), an authenticated actor with a truthy user id is present, and
the custom resolver (when one is supplied) returns without throwing; when
no actor is present nothing is written and the response is delivered
unchanged. -/
theorem dispatch_iff_success_and_actor (action targetType : String)
    (g : Option Resolver) (req : Req) (res : Res) (body : Body) (now : Int)
    (st : Store) (outcome : DbOutcome) :
    ((auditSendHook action targetType g req res body now st
        outcome).dispatched = true ↔
      (200 ≤ res.statusCode ∧ res.statusCode < 300 ∧ actorTruthy req = true ∧
        resolverOk g req res = true)) ∧
    (actorTruthy req = false →
      (auditSendHook action targetType g req res body now st outcome).store =
        st ∧
      (auditSendHook action targetType g req res body now st
        outcome).dispatched = false ∧
      (auditSendHook action targetType g req res body now st
        outcome).sentBody = body) := by
  constructor
  · unfold auditSendHook
    split
    · rename_i hstatus
      by_cases hact : actorTruthy req
      · simp only [hact, if_true]
        cases g with
        | none =>
          obtain ⟨v, hv⟩ := resolveTargetId_none_ok req res body
          rw [hv]
          simp [resolverOk, hstatus.1, hstatus.2, hact]
        | some f =>
          cases hf : f req res with
          | ok v =>
            have hres : resolveTargetId (some f) req res body =
                Except.ok v := hf
            rw [hres]
            simp [resolverOk, hf, hstatus.1, hstatus.2, hact]
          | error msg =>
            have hres : resolveTargetId (some f) req res body =
                Except.error msg := hf
            rw [hres]
            simp [resolverOk, hf]
      · simp only [hact]
        simp only [Bool.false_eq_true, if_false]
        simp [resolverOk, hact]
    · rename_i hstatus
      simp only []
      constructor
      · intro hfalse
        exact absurd hfalse (by simp)
      · intro ⟨ha, hb, _⟩
        exact absurd (And.intro ha hb) hstatus
  · intro hact
    unfold auditSendHook
    split
    · simp [hact]
    · exact ⟨rfl, rfl, rfl⟩

/-- C4 witness: an anonymous completion of a wrapped deletion — no event is
created and the response is unchanged. -/
theorem dispatch_iff_success_and_actor_app :
    (auditSendHook "USER_DELETED" "User" none reqAnon ⟨200⟩ Body.nullBody 0 []
      DbOutcome.ok).store = [] ∧
    (auditSendHook "USER_DELETED" "User" none reqAnon ⟨200⟩ Body.nullBody 0 []
      DbOutcome.ok).dispatched = false := by
  have h := (dispatch_iff_success_and_actor "USER_DELETED" "User" none reqAnon
    ⟨200⟩ Body.nullBody 0 [] DbOutcome.ok).2 (by decide)
  exact ⟨h.1, h.2.1⟩

/-- C10 — The payload walk runs only for string bodies: a wrapped operation
whose handler passes a non-string body to `send`, with no custom resolver
and no truthy path parameter, records the sentinel `"unknown"` even when
the body holds an id at a recognized nested location. -/
theorem object_body_not_walked (action targetType : String) (req : Req)
    (res : Res) (p : Payload) (now : Int) (st : Store)
    (h1 : optTruthy req.params.id = false)
    (h2 : optTruthy req.params.stationId = false)
    (h3 : optTruthy req.params.userId = false) :
    resolveTargetId none req res (Body.objBody p) = Except.ok "unknown" ∧
    (∀ u : UserCtx, req.user = some u → optTruthy u.userId = true →
      200 ≤ res.statusCode → res.statusCode < 300 →
      auditSendHook action targetType none req res (Body.objBody p) now st
        DbOutcome.ok =
        ⟨st ++ [⟨u.userId.getD "", action, targetType, "unknown", now,
          getClientIP req⟩], true, Body.objBody p⟩) := by
  have hres : resolveTargetId none req res (Body.objBody p) =
      Except.ok "unknown" := by
    simp [resolveTargetId, h1, h2, h3]
  refine ⟨hres, ?_⟩
  intro u hu htru h200 h300
  have hact : actorTruthy req = true := by
    simp [actorTruthy, hu, htru]
  simp [auditSendHook, hact, hres, h200, h300, hu, createAuditLog,
    auditLogModelCreate]

/-- C10 witness: an object body carrying `data.station.id = "s-77"` still
yields the sentinel, and the recorded event's target id is `"unknown"`. -/
theorem object_body_not_walked_app :
    resolveTargetId none reqObj ⟨201⟩ (Body.objBody payloadObj) =
      Except.ok "unknown" ∧
    auditSendHook "STATION_CREATED" "Station" none reqObj ⟨201⟩
      (Body.objBody payloadObj) 9 [] DbOutcome.ok =
      ⟨[⟨"u9", "STATION_CREATED", "Station", "unknown", 9, "0.0.0.0"⟩], true,
        Body.objBody payloadObj⟩ := by
  have h := object_body_not_walked "STATION_CREATED" "Station" reqObj ⟨201⟩
    payloadObj 9 [] (by decide) (by decide) (by decide)
  exact ⟨h.1, h.2 ⟨some "u9"⟩ rfl (by decide) (by decide) (by decide)⟩

/-- C5 — evaluation at the failing input: a station creation that succeeds
on its own logic (valid body, fresh serial number), performed by an
authenticated actor against a healthy Event Store, answers 201 yet records
zero AuditEvents — for any starting store.  The explicit recorder path is
dead because every call site passes `(req as any).user?.userId` (a string)
as `logAuditEvent`'s `req` parameter, whose `user && user.userId` guard
then always fails. -/
theorem createStation_success_records_no_event :
    (createStation csEx 3 [] DbOutcome.ok).2 = ⟨201, true⟩ ∧
    (createStation csEx 3 [] DbOutcome.ok).1 = [] ∧
    (∀ st : Store, (createStation csEx 3 st DbOutcome.ok).1 = st) ∧
    actorTruthy reqStation = true := by
  exact ⟨rfl, rfl, fun st => rfl, rfl⟩

/-- C6 — Append-only Event Store: all four query-engine endpoints are GET
routes whose handlers issue only read operations on the AuditLog model;
across the whole repository no call site updates or deletes an AuditLog;
and the single write path only appends to the store. -/
theorem audit_store_append_only :
    (∀ r ∈ auditLogRoutes, r.method = "GET" ∧
      ∀ op ∈ r.auditLogOps, isReadOp op = true) ∧
    (∀ c ∈ auditLogCallSites, c.2 ≠ DbOp.updateOp ∧ c.2 ≠ DbOp.destroyOp) ∧
    (∀ (userId action targetType targetId : String) (now : Int) (ip : String)
      (st : Store) (outcome : DbOutcome),
      ∃ tail, (createAuditLog userId action targetType targetId now ip st
        outcome).1 = st ++ tail) := by
  refine ⟨by decide, by decide, ?_⟩
  intro userId action targetType targetId now ip st outcome
  cases outcome with
  | ok => exact ⟨[⟨userId, action, targetType, targetId, now, ip⟩], rfl⟩
  | fail => exact ⟨[], by simp [createAuditLog, auditLogModelCreate]⟩

/-- C6 witness: the list endpoint is a GET whose only AuditLog operation is
the read `findAndCountAll`. -/
theorem audit_store_append_only_app :
    (⟨"GET", "/", "getAuditLogs", [DbOp.findAndCountAllOp]⟩ : AuditRoute) ∈
      auditLogRoutes ∧
    ("GET" : String) = "GET" ∧
    (∀ op ∈ [DbOp.findAndCountAllOp], isReadOp op = true) := by
  have h := audit_store_append_only.1
    ⟨"GET", "/", "getAuditLogs", [DbOp.findAndCountAllOp]⟩ (by decide)
  exact ⟨by decide, h.1, h.2⟩

/-- The reversed time range of the C7 scenario: `startDate` after
`endDate`. -/
def qReversed : AuditQuery :=
  ⟨none, none, none, none, none, none, some 2, some 1, none⟩

/-- A one-event store; its event lies outside the reversed range. -/
def stOneEvent : Store := [⟨"u1", "USER_LOGIN", "User", "t1", 5, "ip"⟩]

/-- Whether a list response is the 400 validation error. -/
def respIsValidationErr : ListResp → Bool
  | .validationErr _ => true
  | .okPage _ _ => false

/-- C7 counterexample — a query with `startDate` after `endDate` passes the
schema (which has no cross-field constraint) and executes: the engine
returns a 200 page over the scanned store, not a ValidationError. -/
theorem reversed_range_passes_validation :
    validateGetAuditLogs qReversed =
      Except.ok ⟨1, 10, none, none, none, none, some 2, some 1, none⟩ ∧
    respIsValidationErr (getAuditLogs qReversed [] stOneEvent) = false ∧
    getAuditLogs qReversed [] stOneEvent =
      ListResp.okPage [] ⟨1, 0, 0, 10, false, false⟩ := by
  exact ⟨rfl, rfl, rfl⟩

/-- C7 (amended) — A list query whose `startDate` is after its `endDate` is
accepted by validation and executes normally; the conjunctive timestamp
range matches no event, so the result is a 200 page with zero items and
`totalItems = 0`. -/
theorem reversed_range_returns_empty_page (q : AuditQuery) (users : Users)
    (st : Store) (v : ValidatedAuditQuery) (s e : Int)
    (hv : validateGetAuditLogs q = Except.ok v)
    (hs : v.startDate = some s) (he : v.endDate = some e) (hlt : e < s) :
    getAuditLogs q users st =
      ListResp.okPage []
        ⟨v.page, 0, 0, v.limit, false, decide (1 < v.page)⟩ := by
  have hb := validate_ok_bounds q v hv
  have hfilter : st.filter (matchesFilters v users) = [] := by
    rw [List.filter_eq_nil_iff]
    intro a _
    simp only [matchesFilters, hs, he, Bool.and_eq_true, decide_eq_true_eq]
    intro h
    have hsa : s ≤ a.timestamp := h.1.1.2
    have hae : a.timestamp ≤ e := h.1.2
    omega
  have hdiv : (v.limit - 1) / v.limit = 0 := Nat.div_eq_of_lt (by omega)
  simp only [getAuditLogs, hv, hfilter]
  simp [sortByTimestampDesc]
  exact ⟨hdiv, by rw [hdiv]; omega⟩

/-- C7 witness: the amended theorem applied to the reversed-range query over
the one-event store. -/
theorem reversed_range_returns_empty_page_app :
    getAuditLogs qReversed [] stOneEvent =
      ListResp.okPage [] ⟨1, 0, 0, 10, false, decide (1 < 1)⟩ := by
  exact reversed_range_returns_empty_page qReversed [] stOneEvent
    ⟨1, 10, none, none, none, none, some 2, some 1, none⟩ 2 1 rfl rfl rfl
    (by omega)

/-- An existing actor for the by-actor queries. -/
def user1 : UserRec := ⟨"u1", "Ann", "Lee", "ann"⟩

/-- 101 events of actor `u1` with distinct timestamps. -/
def stBig : Store :=
  (List.range 101).map (fun i => ⟨"u1", "ACT", "T", "x", (i : Int), "ip"⟩)

/-- A by-actor query requesting 101 items per page. -/
def q101 : ByUserQuery := ⟨some 1, some 101, none, none, none, none, none⟩

/-- A by-actor query carrying an `endDate` that excludes every event. -/
def qEndDate : ByUserQuery := ⟨none, none, none, none, none, some (-1), none⟩

/-- A one-event store whose event a `-1` endDate would exclude. -/
def stOne2 : Store := [⟨"u1", "ACT", "T", "x", 5, "ip"⟩]

/-- The general-list query with the same actor and `endDate` filter. -/
def qListEnd : AuditQuery :=
  ⟨none, none, some "u1", none, none, none, none, some (-1), none⟩

/-- The item count of a by-actor response page. -/
def byUserItemsLength : ByUserResp → Nat
  | .okPage items _ _ => items.length
  | _ => 0

/-- C8 counterexample — the by-actor list does not honor the general list's
contract: a `limit` of 101 is accepted and 101 items are returned (the
fixed maximum of 100 is not enforced, as this route has no validation
schema), and an `endDate` filter that the general list applies (returning
zero items) is silently ignored by the by-actor list (which returns the
event anyway). -/
theorem by_user_breaks_list_contract :
    byUserItemsLength (getAuditLogsByUser "u1" q101 [user1] stBig) = 101 ∧
    100 < 101 ∧
    byUserItemsLength (getAuditLogsByUser "u1" qEndDate [user1] stOne2) = 1 ∧
    getAuditLogs qListEnd [user1] stOne2 =
      ListResp.okPage [] ⟨1, 0, 0, 10, false, false⟩ := by
  exact ⟨rfl, by omega, rfl, rfl⟩

/-- C8 (amended) — The by-actor list checks only that the actor exists (a
404 NotFound, distinct from an empty page) and supports only the
action-substring and targetType filters; `page` and `limit` are read
unvalidated with defaults 1 and 10 and no upper bound; `startDate`,
`endDate` and `search` are ignored (the response is independent of them);
for an existing actor the page follows the same slice-and-ceiling
arithmetic as the general list, over `byUserMatches`. -/
theorem by_user_contract (userId : String) (q : ByUserQuery) (users : Users)
    (st : Store) :
    (∀ (sd ed : Option Int) (srch : Option String),
      getAuditLogsByUser userId
        ⟨q.page, q.limit, q.action, q.targetType, sd, ed, srch⟩ users st =
        getAuditLogsByUser userId q users st) ∧
    (userId.isEmpty = false → lookupUser users userId = none →
      getAuditLogsByUser userId q users st = ByUserResp.notFound) ∧
    (∀ u : UserRec, userId.isEmpty = false → lookupUser users userId = some u →
      getAuditLogsByUser userId q users st =
        ByUserResp.okPage
          (((sortByTimestampDesc (st.filter (byUserMatches userId q))).drop
            ((q.page.getD 1 - 1) * q.limit.getD 10)).take (q.limit.getD 10)) u
          ⟨q.page.getD 1,
           ((st.filter (byUserMatches userId q)).length + q.limit.getD 10 - 1) /
             q.limit.getD 10,
           (st.filter (byUserMatches userId q)).length,
           q.limit.getD 10,
           decide (q.page.getD 1 <
             ((st.filter (byUserMatches userId q)).length + q.limit.getD 10 - 1) /
               q.limit.getD 10),
           decide (1 < q.page.getD 1)⟩) ∧
    (∀ (items : List AuditEvent) (u : UserRec) (pag : Pagination),
      ByUserResp.notFound ≠ ByUserResp.okPage items u pag) := by
  refine ⟨fun sd ed srch => rfl, ?_, ?_, ?_⟩
  · intro hne hlook
    simp [getAuditLogsByUser, hne, hlook]
  · intro u hne hlook
    simp [getAuditLogsByUser, hne, hlook]
  · intro items u pag h
    exact ByUserResp.noConfusion h

/-- C8 witness: a non-existent actor id yields the 404, distinct from an
empty page. -/
theorem by_user_contract_app :
    getAuditLogsByUser "zz" q101 [user1] stOne2 = ByUserResp.notFound ∧
    (∀ (items : List AuditEvent) (u : UserRec) (pag : Pagination),
      ByUserResp.notFound ≠ ByUserResp.okPage items u pag) := by
  have h := by_user_contract "zz" q101 [user1] stOne2
  exact ⟨h.2.1 (by decide) (by decide), h.2.2.2⟩

/-- C9 — For every filter set and validated page and limit: the response
page equals the engine's slice for the current page; `totalPages` is the
ceiling of `totalItems / itemsPerPage`; `hasNextPage` is `currentPage <
totalPages`; `hasPreviousPage` is `currentPage > 1`; and the item counts of
all `totalPages` pages of that filter set sum to `totalItems`. -/
theorem pagination_invariants (q : AuditQuery) (users : Users) (st : Store)
    (v : ValidatedAuditQuery)
    (hv : validateGetAuditLogs q = Except.ok v) :
    getAuditLogs q users st =
      ListResp.okPage (listPageItems v users st v.page)
        ⟨v.page,
         ((st.filter (matchesFilters v users)).length + v.limit - 1) / v.limit,
         (st.filter (matchesFilters v users)).length,
         v.limit,
         decide (v.page <
           ((st.filter (matchesFilters v users)).length + v.limit - 1) / v.limit),
         decide (1 < v.page)⟩ ∧
    ((List.range
        (((st.filter (matchesFilters v users)).length + v.limit - 1) / v.limit)).map
      (fun p => (listPageItems v users st (p + 1)).length)).sum =
      (st.filter (matchesFilters v users)).length := by
  have hb := validate_ok_bounds q v hv
  constructor
  · simp only [getAuditLogs, hv]
    rfl
  · have hlen : (sortByTimestampDesc (st.filter (matchesFilters v users))).length =
        (st.filter (matchesFilters v users)).length := sortDesc_length _
    have hsum := sum_chunk_lengths v.limit (by omega)
      (((st.filter (matchesFilters v users)).length + v.limit - 1) / v.limit)
      (sortByTimestampDesc (st.filter (matchesFilters v users)))
      (by rw [hlen])
    have hmap :
        ((List.range
            (((st.filter (matchesFilters v users)).length + v.limit - 1) /
              v.limit)).map
          (fun p => (listPageItems v users st (p + 1)).length)) =
        ((List.range
            (((st.filter (matchesFilters v users)).length + v.limit - 1) /
              v.limit)).map
          (fun p =>
            (((sortByTimestampDesc (st.filter (matchesFilters v users))).drop
              (p * v.limit)).take v.limit).length)) := by
      apply List.map_congr_left
      intro p _
      simp [listPageItems]
    rw [hmap, hsum, hlen]

/-- C9 witness: the theorem applied to the default query over a one-event
store. -/
theorem pagination_invariants_app :
    ((List.range
        (((stOneEvent.filter (matchesFilters
            ⟨1, 10, none, none, none, none, none, none, none⟩ [])).length +
          10 - 1) / 10)).map
      (fun p => (listPageItems
        ⟨1, 10, none, none, none, none, none, none, none⟩ [] stOneEvent
        (p + 1)).length)).sum =
      (stOneEvent.filter (matchesFilters
        ⟨1, 10, none, none, none, none, none, none, none⟩ [])).length :=
  (pagination_invariants ⟨none, none, none, none, none, none, none, none, none⟩
    [] stOneEvent ⟨1, 10, none, none, none, none, none, none, none⟩ rfl).2

end StationMgr
